import Mathlib

/-!
Shallow embedding of the HIIT interval-timer application (`src/app.js`) and
proofs of the specification claims about it.

Modelling conventions:
* JS numbers holding integral quantities (seconds, round counters, millisecond
  timestamps) are modelled as `Int`.
* `Math.ceil((a) / 1000)` on integral `a` is modelled by `ceilDiv a 1000`
  (exact integer ceiling; the JS float division is exact enough that its
  ceiling agrees with the integer ceiling at these magnitudes).
* The JS `%` operator (remainder with the sign of the dividend) is modelled
  by `Int.tmod`.
* DOM access is elided: the numeric form fields are the strings of a
  `RawInput`, and the `ui` field of `State` holds the parsed value of the
  current form (the `value` object built by `readConfigFromUI`), which is
  what `getCfg()` falls back to when no frozen run-config applies.
* The cue side effects `signal()` / `signalStrong()` are modelled as emitted
  `Cue` events; the `warn` cue records the `remaining` value current at
  emission time and the `transition` cue records the phase being entered.
* `setInterval` scheduling is elided: the anonymous interval callback of
  `tickLoop` is the function `tickOnce`, applied at explicit clock values.
  Its inner `while` loop is given explicit fuel (`catchUp`); every theorem
  supplies enough fuel that the fuel-out branch is never reached.
-/

namespace HIIT

/-- The seven phase labels of `app.js` (`phase` global). -/
inductive Phase where
  | IDLE
  | WARMUP
  | WORK
  | REST1
  | REST2
  | COOLDOWN
  | DONE
deriving DecidableEq, Repr

/-- The `value` object built by `readConfigFromUI` in `app.js`. -/
structure Config where
  warmup : Int
  rounds : Int
  work : Int
  rest1 : Int
  rest2 : Int
  rest2Every : Int
  cooldown : Int
  sound : Bool
  vibrate : Bool
deriving DecidableEq, Repr

/-- Abstract cue events: `warn` models `signal()` (fired by the tick
callback in the 1..3 second warning window) and records the `remaining`
value current when it fires; `transition` models `signalStrong()`
(fired by `enterPhase`) and records the phase entered. -/
inductive Cue where
  | warn (remaining : Int)
  | transition (p : Phase)
deriving DecidableEq, Repr

/-- The mutable module-level session state of `app.js`:
`phase`, `totalRounds`, `currentRound`, `remaining`, `phaseDuration`,
`phaseEndAt`, `running`, `paused`, `cfgRun`.  The extra `ui` field models
the parsed value of the current form (`readConfigFromUI().value`), the
fallback that `getCfg()` uses when there is no applicable frozen config. -/
structure State where
  phase : Phase
  totalRounds : Int
  currentRound : Int
  remaining : Int
  phaseDuration : Int
  phaseEndAt : Int
  running : Bool
  paused : Bool
  cfgRun : Option Config
  ui : Config
deriving DecidableEq, Repr

/-- Integer ceiling division (for positive `b`): model of
`Math.ceil(a / b)` on integral operands. -/
def ceilDiv (a b : Int) : Int := -(-a / b)

/-- Model of `getCfg()`:
`if (running && cfgRun) return cfgRun; return readConfigFromUI().value;`. -/
def getCfg (s : State) : Config :=
  if s.running = true ∧ s.cfgRun.isSome then s.cfgRun.getD s.ui else s.ui

/-- Duration (in seconds) that `enterPhase` assigns to each phase,
read off the governing config. -/
def phaseDurCfg (cfg : Config) : Phase → Int
  | .WORK => cfg.work
  | .WARMUP => cfg.warmup
  | .REST1 => cfg.rest1
  | .REST2 => cfg.rest2
  | .COOLDOWN => cfg.cooldown
  | _ => 0

/-- Model of `enterPhase(newPhase)` in `app.js`: sets `phase`, and per
phase sets `remaining` / `phaseDuration` / `phaseEndAt` from `getCfg()`
and the clock, increments `currentRound` when entering `WORK`, emits the
`signalStrong()` transition cue, and on `DONE` additionally stops the
session (`running = false`, `paused = false`).  `now` is `Date.now()`. -/
def enterPhase (now : Int) (newPhase : Phase) (s : State) : State × List Cue :=
  let s0 : State := { s with phase := newPhase }
  match newPhase with
  | .WORK =>
      let r := (getCfg s0).work
      ({ s0 with currentRound := s0.currentRound + 1, remaining := r,
                 phaseDuration := r, phaseEndAt := now + r * 1000 },
       [Cue.transition .WORK])
  | .WARMUP =>
      let r := (getCfg s0).warmup
      ({ s0 with remaining := r, phaseDuration := r, phaseEndAt := now + r * 1000 },
       [Cue.transition .WARMUP])
  | .REST1 =>
      let r := (getCfg s0).rest1
      ({ s0 with remaining := r, phaseDuration := r, phaseEndAt := now + r * 1000 },
       [Cue.transition .REST1])
  | .REST2 =>
      let r := (getCfg s0).rest2
      ({ s0 with remaining := r, phaseDuration := r, phaseEndAt := now + r * 1000 },
       [Cue.transition .REST2])
  | .COOLDOWN =>
      let r := (getCfg s0).cooldown
      ({ s0 with remaining := r, phaseDuration := r, phaseEndAt := now + r * 1000 },
       [Cue.transition .COOLDOWN])
  | .DONE =>
      ({ s0 with remaining := 0, phaseDuration := 0, phaseEndAt := 0,
                 running := false, paused := false },
       [Cue.transition .DONE])
  | .IDLE => (s0, [])

/-- Model of `nextPhase()` in `app.js`: decides the successor phase from
the current phase, `currentRound`, `totalRounds` and `getCfg()`, and
enters it.  At `DONE` it only stops the session; at `IDLE` (no branch in
the source matches) it does nothing. -/
def nextPhase (now : Int) (s : State) : State × List Cue :=
  match s.phase with
  | .WARMUP => enterPhase now .WORK s
  | .WORK =>
      if s.currentRound ≥ s.totalRounds then
        enterPhase now (if (getCfg s).cooldown > 0 then .COOLDOWN else .DONE) s
      else
        let cfg := getCfg s
        if cfg.rest2 > 0 ∧ cfg.rest2Every > 0 ∧ Int.tmod s.currentRound cfg.rest2Every = 0 then
          enterPhase now .REST2 s
        else if cfg.rest1 > 0 then
          enterPhase now .REST1 s
        else
          enterPhase now .WORK s
  | .REST1 => enterPhase now .WORK s
  | .REST2 => enterPhase now .WORK s
  | .COOLDOWN => enterPhase now .DONE s
  | .DONE => ({ s with running := false, paused := false }, [])
  | .IDLE => (s, [])

/-- Model of `syncRemainingFromClock()` in `app.js`. -/
def syncRemainingFromClock (now : Int) (s : State) : State :=
  if s.phase = .IDLE ∨ s.phase = .DONE then
    { s with remaining := 0 }
  else
    { s with remaining := max 0 (ceilDiv (s.phaseEndAt - now) 1000) }

/-- Model of `togglePause()` in `app.js`: no-op unless `running`;
pause branch snapshots `remaining` from the clock; resume branch
re-anchors `phaseEndAt` and then runs the synchronous head of
`tickLoop()` (a `syncRemainingFromClock` before rescheduling). -/
def togglePause (now : Int) (s : State) : State :=
  if s.running = false then s
  else if s.paused = false then
    { s with paused := true,
             remaining := max 0 (ceilDiv (s.phaseEndAt - now) 1000) }
  else
    syncRemainingFromClock now { s with paused := false, phaseEndAt := now + s.remaining * 1000 }

/-- The raw form contents consumed by `readConfigFromUI`: the seven
numeric fields as strings plus the two checkbox booleans. -/
structure RawInput where
  warmup : String
  rounds : String
  work : String
  rest1 : String
  rest2 : String
  rest2Every : String
  cooldown : String
  sound : Bool
  vibrate : Bool

/-- Value of a list of decimal digit characters. -/
def digitsVal (ds : List Char) : Nat :=
  ds.foldl (fun a c => 10 * a + (c.toNat - 48)) 0

/-- Model of JavaScript `parseInt(String(v), 10)`: skip leading
whitespace, optional sign, then the longest run of leading decimal
digits; `none` models `NaN` (no digits found).  Trailing garbage is
ignored, exactly as in JS. -/
def parseIntJS (v : String) : Option Int :=
  let cs := v.toList.dropWhile Char.isWhitespace
  let signed : Int × List Char :=
    match cs with
    | '-' :: t => (-1, t)
    | '+' :: t => (1, t)
    | t => (1, t)
  let ds := signed.2.takeWhile Char.isDigit
  if ds.isEmpty then none else some (signed.1 * (digitsVal ds : Int))

/-- Model of `toInt(v, fallback)` in `app.js`:
`Number.isFinite(parseInt(...))` fails exactly when the parse yields
`NaN`, in which case the fallback is used. -/
def toInt (v : String) (fallback : Int) : Int :=
  (parseIntJS v).getD fallback

/-- The `value` object assembled by `readConfigFromUI` before validation,
with each field's built-in fallback. -/
def parsedValue (raw : RawInput) : Config :=
  { warmup := toInt raw.warmup 0
    rounds := toInt raw.rounds 20
    work := toInt raw.work 40
    rest1 := toInt raw.rest1 20
    rest2 := toInt raw.rest2 0
    rest2Every := toInt raw.rest2Every 0
    cooldown := toInt raw.cooldown 0
    sound := raw.sound
    vibrate := raw.vibrate }

/-- Model of `readConfigFromUI()` in `app.js`: parse every field (with
fallbacks), then run the validation checks in source order, returning
the first failing check's single error string, or the parsed value. -/
def readConfigFromUI (raw : RawInput) : Except String Config :=
  let value := parsedValue raw
  if value.rounds < 1 then .error "Rounds deve ser >= 1"
  else if value.work < 1 then .error "Trabalho deve ser >= 1"
  else if value.warmup < 0 ∨ value.rest1 < 0 ∨ value.rest2 < 0 ∨ value.cooldown < 0 then
    .error "Tempos não podem ser negativos."
  else if value.rest2Every < 0 then .error "rest2Every não pode ser negativo."
  else .ok value

/-- Model of `start()` in `app.js`, run against a form whose parsed
contents are `raw`: no-op if already running; on validation failure the
error is only alerted and the state is returned untouched; on success
the config is frozen (`cfgRun`), `totalRounds` applied, the initial
phase chosen (`WARMUP` when `warmup > 0`, else `WORK`), entered via
`enterPhase` (while `running` is still false, so `getCfg` reads the
form value), then `running` is set and the synchronous head of
`tickLoop()` resyncs `remaining`. -/
def start (raw : RawInput) (now : Int) (s : State) : State × List Cue :=
  if s.running = true then (s, [])
  else
    match readConfigFromUI raw with
    | .error _ => (s, [])
    | .ok cfg =>
        let s1 : State := { s with ui := cfg, cfgRun := some cfg, totalRounds := cfg.rounds }
        let p0 : Phase := if cfg.warmup > 0 then .WARMUP else .WORK
        let s2 : State := { s1 with phase := p0, currentRound := 0, paused := false }
        let e := enterPhase now p0 s2
        let s3 : State := { e.1 with running := true }
        (syncRemainingFromClock now s3, e.2)

/-- Fuel-indexed model of the catch-up loop inside the `tickLoop`
interval callback:
`while (remaining <= 0 && running && !paused) { nextPhase(); if (phase === "DONE") return; syncRemainingFromClock(); }`.
The fuel only bounds the iteration count; theorems always supply enough
fuel that the `0` branch is never taken. -/
def catchUp : Nat → Int → State → State × List Cue
  | 0, _, s => (s, [])
  | fuel + 1, now, s =>
      if s.remaining ≤ 0 ∧ s.running = true ∧ s.paused = false then
        let t := nextPhase now s
        if t.1.phase = .DONE then t
        else
          let s2 := syncRemainingFromClock now t.1
          let u := catchUp fuel now s2
          (u.1, t.2 ++ u.2)
      else (s, [])

/-- One invocation of the `setInterval` callback of `tickLoop()` at clock
value `now`: bail out when not running or paused, remember `prev`,
resync `remaining` from the clock, fire the `warn` cue when the new
value is in the 1..3 window and differs from `prev`, then run the
catch-up loop. -/
def tickOnce (fuel : Nat) (now : Int) (s : State) : State × List Cue :=
  if s.running = false ∨ s.paused = true then (s, [])
  else
    let prev := s.remaining
    let s1 := syncRemainingFromClock now s
    let warns : List Cue :=
      if s1.remaining > 0 ∧ s1.remaining ≤ 3 ∧ s1.remaining ≠ prev then
        [Cue.warn s1.remaining]
      else []
    let u := catchUp fuel now s1
    (u.1, warns ++ u.2)

/-- A sequence of interval-callback invocations at the given clock
values, threading the state and concatenating the emitted cues. -/
def tickSeq (fuel : Nat) : List Int → State → State × List Cue
  | [], s => (s, [])
  | t :: ts, s =>
      let a := tickOnce fuel t s
      let b := tickSeq fuel ts a.1
      (b.1, a.2 ++ b.2)

/-- The pure successor-phase decision embodied by `nextPhase()`:
given the governing config, `totalRounds` and `currentRound`, the phase
entered next from each phase.  (`DONE` and `IDLE` map to themselves:
from those phases `nextPhase()` enters no phase.) -/
def nextPhaseOf (cfg : Config) (total r : Int) : Phase → Phase
  | .WARMUP => .WORK
  | .WORK =>
      if r ≥ total then (if cfg.cooldown > 0 then .COOLDOWN else .DONE)
      else if cfg.rest2 > 0 ∧ cfg.rest2Every > 0 ∧ Int.tmod r cfg.rest2Every = 0 then .REST2
      else if cfg.rest1 > 0 then .REST1
      else .WORK
  | .REST1 => .WORK
  | .REST2 => .WORK
  | .COOLDOWN => .DONE
  | p => p

/-- One step of the phase/round sequence: the successor phase, with the
round incremented exactly when the successor is `WORK` (the increment
`enterPhase` performs on entering `WORK`). -/
def stepPR (cfg : Config) (p : Phase) (r : Int) : Phase × Int :=
  let q := nextPhaseOf cfg cfg.rounds r p
  (q, if q = .WORK then r + 1 else r)

/-- The sequence of `(phase, currentRound)` pairs entered after the state
`(p, r)`, following `stepPR` until `DONE` (or until fuel runs out; the
theorems always supply enough fuel). -/
def traceFrom (cfg : Config) : Nat → Phase → Int → List (Phase × Int)
  | 0, _, _ => []
  | fuel + 1, p, r =>
      if p = .DONE then []
      else
        let q := stepPR cfg p r
        q :: traceFrom cfg fuel q.1 q.2

/-- The full sequence of `(phase, currentRound)` pairs entered over a run
started by `start()` with frozen config `cfg`: the initial phase is
`WARMUP` when `warmup > 0` and otherwise `WORK` (entered with round 1),
followed by the `stepPR` iteration. -/
def fullTrace (cfg : Config) (fuel : Nat) : List (Phase × Int) :=
  let p0 : Phase := if cfg.warmup > 0 then .WARMUP else .WORK
  let r0 : Int := if p0 = .WORK then 1 else 0
  (p0, r0) :: traceFrom cfg fuel p0 r0

/-- The round values at the `WORK` entries of a trace. -/
def workRounds (t : List (Phase × Int)) : List Int :=
  (t.filter (fun q => q.1 == Phase.WORK)).map Prod.snd

/-- The `remaining` value `syncRemainingFromClock` computes in a timed
phase whose deadline is `e`, at clock value `t`. -/
def remVal (e t : Int) : Int := max 0 (ceilDiv (e - t) 1000)


/-! ### Arithmetic helper lemmas about the clock computations -/

lemma ceilDiv_nonpos {a b : Int} (ha : a ≤ 0) (hb : 0 ≤ b) : ceilDiv a b ≤ 0 := by
  have h : 0 ≤ -a / b := Int.ediv_nonneg (by omega) hb
  unfold ceilDiv
  omega

lemma ceilDiv_mul_cancel (d : Int) : ceilDiv (d * 1000) 1000 = d := by
  unfold ceilDiv
  rw [show -(d * 1000) = -d * 1000 by ring, Int.mul_ediv_cancel _ (by norm_num)]
  ring

lemma ceilDiv_mono {a b c : Int} (h : a ≤ b) (hc : 0 < c) : ceilDiv a c ≤ ceilDiv b c := by
  have := Int.ediv_le_ediv hc (show -b ≤ -a by omega)
  unfold ceilDiv
  omega

lemma remVal_nonneg (e t : Int) : 0 ≤ remVal e t := le_max_left _ _

lemma remVal_antitone (e : Int) {t u : Int} (h : t ≤ u) : remVal e u ≤ remVal e t := by
  have := ceilDiv_mono (show e - u ≤ e - t by omega) (show (0:Int) < 1000 by norm_num)
  unfold remVal
  omega

/-! ### C4 -/

/-- Claim C4: at every reconciliation step in a timed phase, `remaining` is
recomputed as `max 0 (ceil ((phaseEndAt - now)/1000))` from the clock, the
result is never negative, and it does not depend on the previously stored
`remaining` counter. -/
theorem remaining_recomputed_from_clock (s : State) (now : Int)
    (h1 : s.phase ≠ Phase.IDLE) (h2 : s.phase ≠ Phase.DONE) :
    (syncRemainingFromClock now s).remaining = max 0 (ceilDiv (s.phaseEndAt - now) 1000)
    ∧ 0 ≤ (syncRemainingFromClock now s).remaining
    ∧ ∀ r : Int, (syncRemainingFromClock now { s with remaining := r }).remaining
        = (syncRemainingFromClock now s).remaining := by
  have hc : ¬(s.phase = Phase.IDLE ∨ s.phase = Phase.DONE) := by simp [h1, h2]
  refine ⟨?_, ?_, ?_⟩
  · simp [syncRemainingFromClock, hc]
  · simp only [syncRemainingFromClock, hc, if_false]
    exact le_max_left _ _
  · intro r
    simp [syncRemainingFromClock, hc]

/-- Witness for C4 at a concrete state and clock value. -/
theorem remaining_recomputed_from_clock_witness :
    ((⟨Phase.WORK, 2, 1, 5, 5, 5000, true, false, none,
        ⟨0, 2, 5, 3, 0, 0, 0, false, false⟩⟩ : State).phase ≠ Phase.IDLE)
    ∧ ((⟨Phase.WORK, 2, 1, 5, 5, 5000, true, false, none,
        ⟨0, 2, 5, 3, 0, 0, 0, false, false⟩⟩ : State).phase ≠ Phase.DONE)
    ∧ ((syncRemainingFromClock 1700 (⟨Phase.WORK, 2, 1, 5, 5, 5000, true, false, none,
        ⟨0, 2, 5, 3, 0, 0, 0, false, false⟩⟩ : State)).remaining
        = max 0 (ceilDiv ((5000 : Int) - 1700) 1000)
      ∧ 0 ≤ (syncRemainingFromClock 1700 (⟨Phase.WORK, 2, 1, 5, 5, 5000, true, false, none,
        ⟨0, 2, 5, 3, 0, 0, 0, false, false⟩⟩ : State)).remaining
      ∧ ∀ r : Int, (syncRemainingFromClock 1700
          { (⟨Phase.WORK, 2, 1, 5, 5, 5000, true, false, none,
              ⟨0, 2, 5, 3, 0, 0, 0, false, false⟩⟩ : State) with remaining := r }).remaining
          = (syncRemainingFromClock 1700 (⟨Phase.WORK, 2, 1, 5, 5, 5000, true, false, none,
              ⟨0, 2, 5, 3, 0, 0, 0, false, false⟩⟩ : State)).remaining) :=
  ⟨by decide, by decide,
   remaining_recomputed_from_clock _ 1700 (by decide) (by decide)⟩



/-! ### C5 -/

/-- Claim C5: for a Running session in a timed phase whose `remaining` is in
sync with the clock, pausing and then resuming at the same clock value
leaves `remaining` unchanged; the pause branch snapshots
`remaining = max 0 (ceil ((phaseEndAt - now)/1000))` and the resume branch
re-anchors `phaseEndAt = now + remaining * 1000`. -/
theorem pause_resume_roundtrip (s : State) (now : Int)
    (hrun : s.running = true) (hp : s.paused = false)
    (h1 : s.phase ≠ Phase.IDLE) (h2 : s.phase ≠ Phase.DONE)
    (hsync : s.remaining = max 0 (ceilDiv (s.phaseEndAt - now) 1000)) :
    (togglePause now s).remaining = s.remaining
    ∧ (togglePause now (togglePause now s)).remaining = s.remaining
    ∧ (togglePause now (togglePause now s)).phaseEndAt = now + s.remaining * 1000 := by
  have hnn : 0 ≤ s.remaining := by
    rw [hsync]; exact le_max_left _ _
  have hc : ¬(s.phase = Phase.IDLE ∨ s.phase = Phase.DONE) := by simp [h1, h2]
  have hpause : togglePause now s =
      { s with paused := true, remaining := max 0 (ceilDiv (s.phaseEndAt - now) 1000) } := by
    simp [togglePause, hrun, hp]
  have hres : togglePause now (togglePause now s) =
      syncRemainingFromClock now
        { s with paused := false, phaseEndAt := now + s.remaining * 1000 } := by
    rw [hpause]
    simp [togglePause, hrun, ← hsync]
  refine ⟨by rw [hpause]; exact hsync.symm, ?_, ?_⟩
  · rw [hres]
    simp [syncRemainingFromClock, hc]
    rw [ceilDiv_mul_cancel]
    omega
  · rw [hres]
    simp [syncRemainingFromClock, hc]

/-- Witness for C5 at a concrete state and clock value. -/
theorem pause_resume_roundtrip_witness :
    ((⟨Phase.WORK, 2, 1, 4, 5, 5000, true, false, none,
        ⟨0, 2, 5, 3, 0, 0, 0, false, false⟩⟩ : State).running = true)
    ∧ ((⟨Phase.WORK, 2, 1, 4, 5, 5000, true, false, none,
        ⟨0, 2, 5, 3, 0, 0, 0, false, false⟩⟩ : State).paused = false)
    ∧ ((⟨Phase.WORK, 2, 1, 4, 5, 5000, true, false, none,
        ⟨0, 2, 5, 3, 0, 0, 0, false, false⟩⟩ : State).phase ≠ Phase.IDLE)
    ∧ ((⟨Phase.WORK, 2, 1, 4, 5, 5000, true, false, none,
        ⟨0, 2, 5, 3, 0, 0, 0, false, false⟩⟩ : State).phase ≠ Phase.DONE)
    ∧ ((⟨Phase.WORK, 2, 1, 4, 5, 5000, true, false, none,
        ⟨0, 2, 5, 3, 0, 0, 0, false, false⟩⟩ : State).remaining
        = max 0 (ceilDiv ((⟨Phase.WORK, 2, 1, 4, 5, 5000, true, false, none,
            ⟨0, 2, 5, 3, 0, 0, 0, false, false⟩⟩ : State).phaseEndAt - 1700) 1000))
    ∧ ((togglePause 1700 (⟨Phase.WORK, 2, 1, 4, 5, 5000, true, false, none,
          ⟨0, 2, 5, 3, 0, 0, 0, false, false⟩⟩ : State)).remaining
        = (⟨Phase.WORK, 2, 1, 4, 5, 5000, true, false, none,
            ⟨0, 2, 5, 3, 0, 0, 0, false, false⟩⟩ : State).remaining
      ∧ (togglePause 1700 (togglePause 1700 (⟨Phase.WORK, 2, 1, 4, 5, 5000, true, false, none,
          ⟨0, 2, 5, 3, 0, 0, 0, false, false⟩⟩ : State))).remaining
        = (⟨Phase.WORK, 2, 1, 4, 5, 5000, true, false, none,
            ⟨0, 2, 5, 3, 0, 0, 0, false, false⟩⟩ : State).remaining
      ∧ (togglePause 1700 (togglePause 1700 (⟨Phase.WORK, 2, 1, 4, 5, 5000, true, false, none,
          ⟨0, 2, 5, 3, 0, 0, 0, false, false⟩⟩ : State))).phaseEndAt
        = 1700 + (⟨Phase.WORK, 2, 1, 4, 5, 5000, true, false, none,
            ⟨0, 2, 5, 3, 0, 0, 0, false, false⟩⟩ : State).remaining * 1000) :=
  ⟨rfl, rfl, by decide, by decide, by decide,
   pause_resume_roundtrip _ 1700 rfl rfl (by decide) (by decide) (by decide)⟩

/-! ### C6 -/

/-- Counterexample to claim C6: the pause control (`togglePause`) is not
idempotent.  On a concrete Running, unpaused session, invoking it twice
resumes (yielding a different state than invoking it once, which pauses);
equivalently, on the Paused session it is not a no-op. -/
theorem togglePause_twice_differs :
    togglePause 0 (togglePause 0 (⟨Phase.WORK, 2, 1, 5, 5, 5000, true, false, none,
        ⟨0, 2, 5, 3, 0, 0, 0, false, false⟩⟩ : State))
      ≠ togglePause 0 (⟨Phase.WORK, 2, 1, 5, 5, 5000, true, false, none,
        ⟨0, 2, 5, 3, 0, 0, 0, false, false⟩⟩ : State)
    ∧ (togglePause 0 (⟨Phase.WORK, 2, 1, 5, 5, 5000, true, true, none,
        ⟨0, 2, 5, 3, 0, 0, 0, false, false⟩⟩ : State)).paused = false := by
  constructor
  · decide
  · decide

/-- Amended C6: the pause control is a toggle, not idempotent.  It is a
no-op exactly when the session is not running; on a running unpaused
session it pauses; on a running paused session it resumes (stays
running), so two invocations undo the pause instead of repeating it. -/
theorem togglePause_is_toggle (s : State) (now : Int) :
    (s.running = false → togglePause now s = s)
    ∧ (s.running = true → s.paused = false → (togglePause now s).paused = true
        ∧ (togglePause now s).running = true)
    ∧ (s.running = true → s.paused = true → (togglePause now s).paused = false
        ∧ (togglePause now s).running = true) := by
  refine ⟨fun h => by simp [togglePause, h], fun h h' => ?_, fun h h' => ?_⟩
  · simp [togglePause, h, h']
  · constructor
    · simp [togglePause, h, h', syncRemainingFromClock]
      split <;> rfl
    · simp [togglePause, h, h', syncRemainingFromClock]
      split <;> rfl

/-- Witness for the amended C6 at concrete stopped, running-unpaused and
running-paused states. -/
theorem togglePause_is_toggle_witness :
    togglePause 0 (⟨Phase.IDLE, 20, 0, 0, 0, 0, false, false, none,
        ⟨0, 2, 5, 3, 0, 0, 0, false, false⟩⟩ : State)
      = (⟨Phase.IDLE, 20, 0, 0, 0, 0, false, false, none,
        ⟨0, 2, 5, 3, 0, 0, 0, false, false⟩⟩ : State)
    ∧ ((togglePause 0 (⟨Phase.WORK, 2, 1, 5, 5, 5000, true, false, none,
        ⟨0, 2, 5, 3, 0, 0, 0, false, false⟩⟩ : State)).paused = true
      ∧ (togglePause 0 (⟨Phase.WORK, 2, 1, 5, 5, 5000, true, false, none,
        ⟨0, 2, 5, 3, 0, 0, 0, false, false⟩⟩ : State)).running = true)
    ∧ ((togglePause 0 (⟨Phase.WORK, 2, 1, 5, 5, 5000, true, true, none,
        ⟨0, 2, 5, 3, 0, 0, 0, false, false⟩⟩ : State)).paused = false
      ∧ (togglePause 0 (⟨Phase.WORK, 2, 1, 5, 5, 5000, true, true, none,
        ⟨0, 2, 5, 3, 0, 0, 0, false, false⟩⟩ : State)).running = true) :=
  ⟨(togglePause_is_toggle _ 0).1 rfl,
   (togglePause_is_toggle _ 0).2.1 rfl rfl,
   (togglePause_is_toggle _ 0).2.2 rfl rfl⟩



/-! ### C7 -/

/-- Counterexample to claim C7: validation does not report each
out-of-range field individually.  With both `rounds` and `work` out of
range (`rounds = 0`, `work = 0`), the reported error is the single
message for `rounds` alone — identical to the report when `work` is in
range — so the out-of-range `work` field is not named. -/
theorem validation_single_message :
    readConfigFromUI ⟨"0", "0", "0", "0", "0", "0", "0", false, false⟩
        = Except.error "Rounds deve ser >= 1"
    ∧ readConfigFromUI ⟨"0", "0", "0", "0", "0", "0", "0", false, false⟩
        = readConfigFromUI ⟨"0", "0", "40", "0", "0", "0", "0", false, false⟩ := by
  exact ⟨rfl, rfl⟩

/-- Amended C7: `start()` on an invalid config reports exactly one error
string — that of the first failing check in the fixed source order
(`rounds < 1`, then `work < 1`, then any negative duration with one
collective message that names no individual field, then negative
`rest2Every`) — regardless of how many other fields are also out of
range. -/
theorem validation_first_failure_wins (raw : RawInput) :
    ((parsedValue raw).rounds < 1 →
        readConfigFromUI raw = Except.error "Rounds deve ser >= 1")
    ∧ (1 ≤ (parsedValue raw).rounds → (parsedValue raw).work < 1 →
        readConfigFromUI raw = Except.error "Trabalho deve ser >= 1")
    ∧ (1 ≤ (parsedValue raw).rounds → 1 ≤ (parsedValue raw).work →
        ((parsedValue raw).warmup < 0 ∨ (parsedValue raw).rest1 < 0 ∨
          (parsedValue raw).rest2 < 0 ∨ (parsedValue raw).cooldown < 0) →
        readConfigFromUI raw = Except.error "Tempos não podem ser negativos.")
    ∧ (1 ≤ (parsedValue raw).rounds → 1 ≤ (parsedValue raw).work →
        0 ≤ (parsedValue raw).warmup → 0 ≤ (parsedValue raw).rest1 →
        0 ≤ (parsedValue raw).rest2 → 0 ≤ (parsedValue raw).cooldown →
        (parsedValue raw).rest2Every < 0 →
        readConfigFromUI raw = Except.error "rest2Every não pode ser negativo.") := by
  refine ⟨fun h => ?_, fun h h' => ?_, fun h h' h'' => ?_, fun h h' a b c d h'' => ?_⟩ <;>
    · simp only [readConfigFromUI]
      split_ifs <;> first | rfl | omega

/-- Witness for the amended C7: a form with `warmup`, `rounds` and `work`
all out of range is reported with the single `rounds` message. -/
theorem validation_first_failure_wins_witness :
    ((parsedValue ⟨"-1", "0", "0", "0", "0", "0", "0", false, false⟩).rounds < 1)
    ∧ readConfigFromUI ⟨"-1", "0", "0", "0", "0", "0", "0", false, false⟩
        = Except.error "Rounds deve ser >= 1" :=
  ⟨by decide,
   (validation_first_failure_wins ⟨"-1", "0", "0", "0", "0", "0", "0", false, false⟩).1
     (by decide)⟩

/-! ### C8 -/

/-- Claim C8: when the config is invalid, `start()` returns after the
alert without mutating any session state and without emitting any cue —
the entire state record (phase, rounds, remaining, deadlines, flags,
frozen config) is returned unchanged. -/
theorem start_invalid_leaves_state (raw : RawInput) (now : Int) (s : State) (e : String)
    (h : readConfigFromUI raw = Except.error e) :
    start raw now s = (s, []) := by
  unfold start
  by_cases hr : s.running = true
  · simp [hr]
  · simp [hr, h]

/-- Witness for C8: the spec's invalid-config scenario (`rounds = 0`)
leaves a concrete idle state untouched. -/
theorem start_invalid_leaves_state_witness :
    readConfigFromUI ⟨"5", "0", "10", "20", "0", "0", "0", true, false⟩
        = Except.error "Rounds deve ser >= 1"
    ∧ start ⟨"5", "0", "10", "20", "0", "0", "0", true, false⟩ 1234
        (⟨Phase.IDLE, 20, 0, 0, 0, 0, false, false, none,
          ⟨0, 20, 40, 20, 0, 0, 0, false, false⟩⟩ : State)
      = ((⟨Phase.IDLE, 20, 0, 0, 0, 0, false, false, none,
          ⟨0, 20, 40, 20, 0, 0, 0, false, false⟩⟩ : State), []) :=
  ⟨rfl, start_invalid_leaves_state _ 1234 _ "Rounds deve ser >= 1" rfl⟩

/-! ### C10 -/

/-- Claim C10: unparsable (non-numeric or empty) text in the numeric
config fields is not rejected: each such field silently falls back to its
built-in default (warmup 0, rounds 20, work 40, rest1 20, rest2 0,
rest2Every 0, cooldown 0), the resulting Config is valid, and `start()`
on a non-running session succeeds with the defaults frozen as the run
config. -/
theorem unparsable_fields_use_defaults (raw : RawInput) (now : Int) (s : State)
    (h1 : parseIntJS raw.warmup = none) (h2 : parseIntJS raw.rounds = none)
    (h3 : parseIntJS raw.work = none) (h4 : parseIntJS raw.rest1 = none)
    (h5 : parseIntJS raw.rest2 = none) (h6 : parseIntJS raw.rest2Every = none)
    (h7 : parseIntJS raw.cooldown = none) (hr : s.running = false) :
    readConfigFromUI raw
        = Except.ok ⟨0, 20, 40, 20, 0, 0, 0, raw.sound, raw.vibrate⟩
    ∧ (start raw now s).1.running = true
    ∧ (start raw now s).1.cfgRun = some ⟨0, 20, 40, 20, 0, 0, 0, raw.sound, raw.vibrate⟩
    ∧ (start raw now s).1.phase = Phase.WORK
    ∧ (start raw now s).1.remaining = 40 := by
  have hv : parsedValue raw = ⟨0, 20, 40, 20, 0, 0, 0, raw.sound, raw.vibrate⟩ := by
    simp [parsedValue, toInt, h1, h2, h3, h4, h5, h6, h7]
  have hok : readConfigFromUI raw
      = Except.ok ⟨0, 20, 40, 20, 0, 0, 0, raw.sound, raw.vibrate⟩ := by
    rw [readConfigFromUI, hv]
    norm_num
  have hrun : ¬(s.running = true) := by simp [hr]
  refine ⟨hok, ?_, ?_, ?_, ?_⟩ <;>
    simp [start, hrun, hok, enterPhase, getCfg, syncRemainingFromClock] <;> decide

/-- Witness for C10: an all-unparsable form (empty and alphabetic text)
starts a run with the default config. -/
theorem unparsable_fields_use_defaults_witness :
    parseIntJS "" = none ∧ parseIntJS "abc" = none ∧ parseIntJS "x2" = none
    ∧ parseIntJS " " = none ∧ parseIntJS "-" = none ∧ parseIntJS "+" = none
    ∧ parseIntJS "e5" = none
    ∧ ((⟨Phase.IDLE, 20, 0, 0, 0, 0, false, false, none,
        ⟨0, 20, 40, 20, 0, 0, 0, false, false⟩⟩ : State).running = false)
    ∧ (readConfigFromUI ⟨"", "abc", "x2", " ", "-", "+", "e5", true, false⟩
        = Except.ok ⟨0, 20, 40, 20, 0, 0, 0, true, false⟩
      ∧ (start ⟨"", "abc", "x2", " ", "-", "+", "e5", true, false⟩ 0
          (⟨Phase.IDLE, 20, 0, 0, 0, 0, false, false, none,
            ⟨0, 20, 40, 20, 0, 0, 0, false, false⟩⟩ : State)).1.running = true
      ∧ (start ⟨"", "abc", "x2", " ", "-", "+", "e5", true, false⟩ 0
          (⟨Phase.IDLE, 20, 0, 0, 0, 0, false, false, none,
            ⟨0, 20, 40, 20, 0, 0, 0, false, false⟩⟩ : State)).1.cfgRun
          = some ⟨0, 20, 40, 20, 0, 0, 0, true, false⟩
      ∧ (start ⟨"", "abc", "x2", " ", "-", "+", "e5", true, false⟩ 0
          (⟨Phase.IDLE, 20, 0, 0, 0, 0, false, false, none,
            ⟨0, 20, 40, 20, 0, 0, 0, false, false⟩⟩ : State)).1.phase = Phase.WORK
      ∧ (start ⟨"", "abc", "x2", " ", "-", "+", "e5", true, false⟩ 0
          (⟨Phase.IDLE, 20, 0, 0, 0, 0, false, false, none,
            ⟨0, 20, 40, 20, 0, 0, 0, false, false⟩⟩ : State)).1.remaining = 40) :=
  ⟨rfl, rfl, rfl, rfl, rfl, rfl, rfl, rfl,
   unparsable_fields_use_defaults ⟨"", "abc", "x2", " ", "-", "+", "e5", true, false⟩ 0 _
     rfl rfl rfl rfl rfl rfl rfl rfl⟩



/-! ### Bridging lemmas between the state-level `nextPhase` and the pure
decision `nextPhaseOf` -/

lemma getCfg_of_frozen (s : State) (cfg : Config)
    (hrun : s.running = true) (hcfg : s.cfgRun = some cfg) : getCfg s = cfg := by
  simp [getCfg, hrun, hcfg]

/-- `nextPhase` enters exactly the phase computed by the pure decision
function `nextPhaseOf`, from every timed phase. -/
lemma nextPhase_eq_enter (now : Int) (s : State)
    (h1 : s.phase ≠ Phase.IDLE) (h2 : s.phase ≠ Phase.DONE) :
    nextPhase now s
      = enterPhase now (nextPhaseOf (getCfg s) s.totalRounds s.currentRound s.phase) s := by
  rcases s with ⟨p, tot, r, rem, pd, pe, run, pa, cr, ui⟩
  cases p <;> simp_all [nextPhase, nextPhaseOf] <;> split_ifs <;> simp_all

/-- The fields of the state after `enterPhase` into a timed phase. -/
lemma enterPhase_timed (now : Int) (p : Phase) (s : State)
    (h1 : p ≠ Phase.IDLE) (h2 : p ≠ Phase.DONE) :
    (enterPhase now p s).1.phase = p
    ∧ (enterPhase now p s).1.remaining = phaseDurCfg (getCfg { s with phase := p }) p
    ∧ (enterPhase now p s).1.phaseEndAt
        = now + phaseDurCfg (getCfg { s with phase := p }) p * 1000
    ∧ (enterPhase now p s).1.running = s.running
    ∧ (enterPhase now p s).1.paused = s.paused
    ∧ (enterPhase now p s).2 = [Cue.transition p] := by
  cases p <;> simp_all [enterPhase, phaseDurCfg]

/-- `getCfg` only inspects `running`, `cfgRun` and `ui`, so record updates
to the other fields do not change it. -/
lemma getCfg_set_phase (s : State) (p : Phase) :
    getCfg { s with phase := p } = getCfg s := by
  simp [getCfg]

/-! ### C3 -/

/-- Claim C3: when a Work phase ends with round `r < totalRounds`, the
successor is `REST2` iff `rest2 > 0 ∧ rest2Every > 0 ∧ r mod rest2Every = 0`;
failing that, `REST1` iff `rest1 > 0`; failing both, `WORK` directly, with
the round incrementing again on entry — in exactly this tie-break order. -/
theorem work_rest_selection (s : State) (now : Int) (cfg : Config)
    (hcfg : s.cfgRun = some cfg) (hrun : s.running = true)
    (hph : s.phase = Phase.WORK) (hlt : s.currentRound < s.totalRounds) :
    ((nextPhase now s).1.phase = Phase.REST2 ↔
      (cfg.rest2 > 0 ∧ cfg.rest2Every > 0 ∧ Int.tmod s.currentRound cfg.rest2Every = 0))
    ∧ (¬(cfg.rest2 > 0 ∧ cfg.rest2Every > 0 ∧ Int.tmod s.currentRound cfg.rest2Every = 0) →
        ((nextPhase now s).1.phase = Phase.REST1 ↔ cfg.rest1 > 0))
    ∧ (¬(cfg.rest2 > 0 ∧ cfg.rest2Every > 0 ∧ Int.tmod s.currentRound cfg.rest2Every = 0) →
        ¬(cfg.rest1 > 0) →
        (nextPhase now s).1.phase = Phase.WORK
        ∧ (nextPhase now s).1.currentRound = s.currentRound + 1) := by
  have hg : getCfg s = cfg := getCfg_of_frozen s cfg hrun hcfg
  rcases s with ⟨p, tot, r, rem, pd, pe, run, pa, cr, ui⟩
  cases hph
  simp only [nextPhase, hg, not_le.mpr hlt, if_false, ge_iff_le]
  by_cases hr2 : cfg.rest2 > 0 ∧ cfg.rest2Every > 0 ∧ Int.tmod r cfg.rest2Every = 0
  · simp [hr2, enterPhase]
  · by_cases hr1 : cfg.rest1 > 0
    · simp [hr2, hr1, enterPhase]
    · simp [hr2, hr1, enterPhase]

/-- Witness for C3 at a concrete Running state (spec scenario config,
round 2 of 4, `rest2Every = 2`), where the `REST2` branch is selected. -/
theorem work_rest_selection_witness :
    ((⟨Phase.WORK, 4, 2, 0, 20, 60000, true, false,
        some ⟨10, 4, 20, 10, 30, 2, 15, false, false⟩,
        ⟨10, 4, 20, 10, 30, 2, 15, false, false⟩⟩ : State).cfgRun
      = some ⟨10, 4, 20, 10, 30, 2, 15, false, false⟩)
    ∧ ((⟨Phase.WORK, 4, 2, 0, 20, 60000, true, false,
        some ⟨10, 4, 20, 10, 30, 2, 15, false, false⟩,
        ⟨10, 4, 20, 10, 30, 2, 15, false, false⟩⟩ : State).running = true)
    ∧ ((⟨Phase.WORK, 4, 2, 0, 20, 60000, true, false,
        some ⟨10, 4, 20, 10, 30, 2, 15, false, false⟩,
        ⟨10, 4, 20, 10, 30, 2, 15, false, false⟩⟩ : State).phase = Phase.WORK)
    ∧ ((⟨Phase.WORK, 4, 2, 0, 20, 60000, true, false,
        some ⟨10, 4, 20, 10, 30, 2, 15, false, false⟩,
        ⟨10, 4, 20, 10, 30, 2, 15, false, false⟩⟩ : State).currentRound
      < (⟨Phase.WORK, 4, 2, 0, 20, 60000, true, false,
        some ⟨10, 4, 20, 10, 30, 2, 15, false, false⟩,
        ⟨10, 4, 20, 10, 30, 2, 15, false, false⟩⟩ : State).totalRounds)
    ∧ (((nextPhase 60000 (⟨Phase.WORK, 4, 2, 0, 20, 60000, true, false,
          some ⟨10, 4, 20, 10, 30, 2, 15, false, false⟩,
          ⟨10, 4, 20, 10, 30, 2, 15, false, false⟩⟩ : State)).1.phase = Phase.REST2 ↔
        ((30:Int) > 0 ∧ (2:Int) > 0 ∧ Int.tmod 2 2 = 0))) := by
  refine ⟨rfl, rfl, rfl, by decide, ?_⟩
  have h := (work_rest_selection
    (⟨Phase.WORK, 4, 2, 0, 20, 60000, true, false,
      some ⟨10, 4, 20, 10, 30, 2, 15, false, false⟩,
      ⟨10, 4, 20, 10, 30, 2, 15, false, false⟩⟩ : State) 60000
    ⟨10, 4, 20, 10, 30, 2, 15, false, false⟩ rfl rfl rfl (by decide)).1
  exact h



/-! ### Lemmas about the catch-up loop (C1) -/

/-- The catch-up loop exits immediately when `remaining` is positive. -/
lemma catchUp_of_pos (f : Nat) (now : Int) (s : State) (h : 0 < s.remaining) :
    catchUp f now s = (s, []) := by
  cases f with
  | zero => rfl
  | succ f => simp [catchUp, not_le.mpr h]

/-- `syncRemainingFromClock` changes no field other than `remaining`. -/
lemma sync_fields (now : Int) (s : State) :
    (syncRemainingFromClock now s).phase = s.phase
    ∧ (syncRemainingFromClock now s).phaseEndAt = s.phaseEndAt
    ∧ (syncRemainingFromClock now s).running = s.running
    ∧ (syncRemainingFromClock now s).paused = s.paused
    ∧ (syncRemainingFromClock now s).totalRounds = s.totalRounds
    ∧ (syncRemainingFromClock now s).currentRound = s.currentRound
    ∧ (syncRemainingFromClock now s).cfgRun = s.cfgRun
    ∧ (syncRemainingFromClock now s).ui = s.ui := by
  unfold syncRemainingFromClock
  split <;> simp

/-- From a timed phase (given a frozen config with `work ≥ 1`), the
successor chosen by the sequencer is never `IDLE` or `WARMUP`, and when
it is not `DONE` its configured duration is at least 1 second:
`WORK` by validity, `REST1`/`REST2`/`COOLDOWN` because the sequencer
only selects them under the corresponding positivity test. -/
lemma nextPhaseOf_good (cfg : Config) (total r : Int) (p : Phase)
    (h1 : p ≠ Phase.IDLE) (h2 : p ≠ Phase.DONE) (hw : 1 ≤ cfg.work) :
    nextPhaseOf cfg total r p ≠ Phase.IDLE
    ∧ nextPhaseOf cfg total r p ≠ Phase.WARMUP
    ∧ (nextPhaseOf cfg total r p ≠ Phase.DONE →
        1 ≤ phaseDurCfg cfg (nextPhaseOf cfg total r p)) := by
  cases p <;>
    simp_all [nextPhaseOf, phaseDurCfg] <;>
    split_ifs <;> simp_all [phaseDurCfg] <;> omega

/-- One unfolding of the catch-up loop from a state whose `remaining` has
been synced to zero: exactly one successor phase is entered (one
transition cue), and unless that successor is `DONE` the loop then exits
because the new phase's deadline was re-anchored at `now`, making the
freshly synced `remaining` a full positive duration. -/
lemma catchUp_single_step (f : Nat) (now : Int) (s1 : State) (cfg : Config)
    (hcfg : s1.cfgRun = some cfg) (hrun : s1.running = true) (hp : s1.paused = false)
    (hrem : s1.remaining ≤ 0) (h1 : s1.phase ≠ Phase.IDLE) (h2 : s1.phase ≠ Phase.DONE)
    (hw : 1 ≤ cfg.work) :
    (catchUp (f + 1) now s1).2
        = [Cue.transition (nextPhaseOf cfg s1.totalRounds s1.currentRound s1.phase)]
    ∧ (catchUp (f + 1) now s1).1.phase
        = nextPhaseOf cfg s1.totalRounds s1.currentRound s1.phase
    ∧ (nextPhaseOf cfg s1.totalRounds s1.currentRound s1.phase ≠ Phase.DONE →
        (catchUp (f + 1) now s1).1.phaseEndAt
            = now + phaseDurCfg cfg (nextPhaseOf cfg s1.totalRounds s1.currentRound s1.phase) * 1000
        ∧ (catchUp (f + 1) now s1).1.remaining
            = phaseDurCfg cfg (nextPhaseOf cfg s1.totalRounds s1.currentRound s1.phase)
        ∧ (catchUp (f + 1) now s1).1.running = true)
    ∧ (nextPhaseOf cfg s1.totalRounds s1.currentRound s1.phase = Phase.DONE →
        (catchUp (f + 1) now s1).1.running = false) := by
  have hg : getCfg s1 = cfg := getCfg_of_frozen s1 cfg hrun hcfg
  have hnp : nextPhase now s1
      = enterPhase now (nextPhaseOf cfg s1.totalRounds s1.currentRound s1.phase) s1 := by
    rw [nextPhase_eq_enter now s1 h1 h2, hg]
  have hq := nextPhaseOf_good cfg s1.totalRounds s1.currentRound s1.phase h1 h2 hw
  have hcond : s1.remaining ≤ 0 ∧ s1.running = true ∧ s1.paused = false := ⟨hrem, hrun, hp⟩
  generalize hqdef : nextPhaseOf cfg s1.totalRounds s1.currentRound s1.phase = q at hnp hq ⊢
  by_cases hd : q = Phase.DONE
  · subst hd
    have hent : enterPhase now Phase.DONE s1
        = ({ s1 with
              phase := Phase.DONE
              remaining := 0
              phaseDuration := 0
              phaseEndAt := 0
              running := false
              paused := false },
           [Cue.transition Phase.DONE]) := by
      simp [enterPhase]
    simp [catchUp, hcond, hnp, hent]
  · have hent := enterPhase_timed now q s1 hq.1 hd
    have hdur : phaseDurCfg (getCfg { s1 with phase := q }) q = phaseDurCfg cfg q := by
      rw [getCfg_set_phase, hg]
    rw [hdur] at hent
    have hdpos : 1 ≤ phaseDurCfg cfg q := hq.2.2 hd
    have hsync2 : ∀ u : State, u.phase = q → u.phaseEndAt = now + phaseDurCfg cfg q * 1000 →
        (syncRemainingFromClock now u).remaining = phaseDurCfg cfg q := by
      intro u hup hue
      have hcp : ¬(u.phase = Phase.IDLE ∨ u.phase = Phase.DONE) := by
        simp [hup, hq.1, hd]
      have he : u.phaseEndAt - now = phaseDurCfg cfg q * 1000 := by omega
      simp [syncRemainingFromClock, hcp, he, ceilDiv_mul_cancel]
      omega
    have hrem2 : (syncRemainingFromClock now (enterPhase now q s1).1).remaining
        = phaseDurCfg cfg q := hsync2 _ hent.1 hent.2.2.1
    have hexit : catchUp f now (syncRemainingFromClock now (enterPhase now q s1).1)
        = (syncRemainingFromClock now (enterPhase now q s1).1, []) := by
      apply catchUp_of_pos
      rw [hrem2]; omega
    have hfields := sync_fields now (enterPhase now q s1).1
    refine ⟨?_, ?_, fun _ => ⟨?_, ?_, ?_⟩, fun hcontra => absurd hcontra hd⟩ <;>
      simp [catchUp, hcond, hnp, hexit, hfields.1, hfields.2.1, hfields.2.2.1, hent.1,
            hent.2.2.1, hent.2.2.2.1, hrun, hrem2, hent.2.2.2.2.2, hd]



/-! ### Lemmas about the warn cue (C9) -/

/-- A callback that lands strictly inside the current phase (synced
`remaining` at least 1) only resyncs `remaining` and possibly fires one
warn cue: the catch-up loop does not run. -/
lemma tickOnce_within_phase (fuel : Nat) (now : Int) (s : State)
    (hrun : s.running = true) (hp : s.paused = false)
    (h1 : s.phase ≠ Phase.IDLE) (h2 : s.phase ≠ Phase.DONE)
    (hin : 1 ≤ remVal s.phaseEndAt now) :
    tickOnce fuel now s
      = ({ s with remaining := remVal s.phaseEndAt now },
         if remVal s.phaseEndAt now ≤ 3 ∧ remVal s.phaseEndAt now ≠ s.remaining
         then [Cue.warn (remVal s.phaseEndAt now)] else []) := by
  have hcnd : ¬(s.running = false ∨ s.paused = true) := by simp [hrun, hp]
  have hcp : ¬(s.phase = Phase.IDLE ∨ s.phase = Phase.DONE) := by simp [h1, h2]
  have hs1 : syncRemainingFromClock now s
      = { s with remaining := remVal s.phaseEndAt now } := by
    simp [syncRemainingFromClock, hcp, remVal]
  have hexit := catchUp_of_pos fuel now { s with remaining := remVal s.phaseEndAt now }
    (by simp; omega)
  have hpos : remVal s.phaseEndAt now > 0 := by omega
  simp [tickOnce, hcnd, hs1, hexit, hpos]

/-- In a `(· ≤ ·)`-chain, the head is below every later element. -/
lemma chain_le_head {t : Int} {ts : List Int}
    (h : List.Chain' (· ≤ ·) (t :: ts)) : ∀ u ∈ ts, t ≤ u := by
  induction ts generalizing t with
  | nil => simp
  | cons w ws ih =>
      intro u hu
      have h1 : t ≤ w ∧ List.Chain' (· ≤ ·) (w :: ws) := List.chain'_cons.mp h
      rcases List.mem_cons.mp hu with rfl | hmem
      · exact h1.1
      · exact le_trans h1.1 (ih h1.2 u hmem)

/-- Counting occurrences of one warn cue in a conditional singleton. -/
lemma count_warn_if (C : Prop) [Decidable C] (a v : Int) :
    ((if C then [Cue.warn a] else []) : List Cue).count (Cue.warn v)
      = if C ∧ a = v then 1 else 0 := by
  by_cases hC : C
  · by_cases hav : a = v <;> simp [hC, hav, List.count_cons]
  · simp [hC]

/-! ### C9 -/

/-- Counterexample to claim C9: for a phase exactly 3 seconds long the
warn cue never fires at `remaining = 3`.  Concrete `REST1` phase of 3
seconds entered at time 0 (`remaining` initialised to 3,
`phaseEndAt = 3000`); callbacks at 250, 1000 and 2000 observe
`remaining = 3, 2, 1`, yet only two warn cues fire (at 2 and at 1):
the entry value 3 is never a *new* value, so the claimed
"once each at remaining = 3, 2 and 1 for phases at least 3 seconds
long" fails at duration exactly 3. -/
theorem warn_skips_entry_value :
    remVal 3000 250 = 3
    ∧ (tickSeq 10 [250, 1000, 2000] (⟨Phase.REST1, 2, 1, 3, 3, 3000, true, false,
        some ⟨0, 2, 5, 3, 0, 0, 0, false, false⟩,
        ⟨0, 2, 5, 3, 0, 0, 0, false, false⟩⟩ : State)).2.count (Cue.warn 3) = 0
    ∧ (tickSeq 10 [250, 1000, 2000] (⟨Phase.REST1, 2, 1, 3, 3, 3000, true, false,
        some ⟨0, 2, 5, 3, 0, 0, 0, false, false⟩,
        ⟨0, 2, 5, 3, 0, 0, 0, false, false⟩⟩ : State)).2
      = [Cue.warn 2, Cue.warn 1] := by
  refine ⟨?_, ?_, ?_⟩ <;> decide

/-- Amended C9: over any monotone sequence of callbacks that stay inside
the current phase, the warn cue fires exactly once for each value `v`
that the clock-derived `remaining` attains, provided `v` is in the 1..3
window and below the `remaining` the phase started the sequence with —
and never otherwise (zero warns for any value outside the window, at
most one warn per value).  In particular a phase entered with exactly 3
seconds remaining warns only at 2 and 1, because 3 is never attained as
a new value; phases longer than 3 seconds warn once each at 3, 2, 1. -/
theorem warn_once_per_attained_value (fuel : Nat) (v : Int) (times : List Int) (s : State)
    (hrun : s.running = true) (hp : s.paused = false)
    (h1 : s.phase ≠ Phase.IDLE) (h2 : s.phase ≠ Phase.DONE)
    (hchain : List.Chain' (· ≤ ·) times)
    (hin : ∀ t ∈ times, 1 ≤ remVal s.phaseEndAt t)
    (hub : ∀ t ∈ times, remVal s.phaseEndAt t ≤ s.remaining) :
    (tickSeq fuel times s).2.count (Cue.warn v)
      = if 1 ≤ v ∧ v ≤ 3 ∧ v < s.remaining ∧ v ∈ times.map (remVal s.phaseEndAt)
        then 1 else 0 := by
  induction times generalizing s with
  | nil => simp [tickSeq]
  | cons t ts ih =>
      have hint : 1 ≤ remVal s.phaseEndAt t := hin t (by simp)
      have hone := tickOnce_within_phase fuel t s hrun hp h1 h2 hint
      have hmono : ∀ u ∈ ts, t ≤ u := chain_le_head hchain
      have hles : remVal s.phaseEndAt t ≤ s.remaining := hub t (by simp)
      have hmem_le : ∀ u ∈ ts.map (remVal s.phaseEndAt), u ≤ remVal s.phaseEndAt t := by
        intro u hu
        obtain ⟨t', ht', rfl⟩ := List.mem_map.mp hu
        exact remVal_antitone s.phaseEndAt (hmono t' ht')
      have hrec := ih { s with remaining := remVal s.phaseEndAt t }
        hrun hp h1 h2 hchain.tail
        (fun u hu => hin u (by simp [hu]))
        (fun u hu => by
          simpa using remVal_antitone s.phaseEndAt (hmono u hu))
      rw [show ({ s with remaining := remVal s.phaseEndAt t } : State).phaseEndAt
            = s.phaseEndAt from rfl,
          show ({ s with remaining := remVal s.phaseEndAt t } : State).remaining
            = remVal s.phaseEndAt t from rfl] at hrec
      have hseq : tickSeq fuel (t :: ts) s
          = ((tickSeq fuel ts { s with remaining := remVal s.phaseEndAt t }).1,
             (if remVal s.phaseEndAt t ≤ 3 ∧ remVal s.phaseEndAt t ≠ s.remaining
              then [Cue.warn (remVal s.phaseEndAt t)] else [])
               ++ (tickSeq fuel ts { s with remaining := remVal s.phaseEndAt t }).2) := by
        simp [tickSeq, hone]
      rw [hseq]
      have hmemc : (v ∈ (t :: ts).map (remVal s.phaseEndAt))
          ↔ (v = remVal s.phaseEndAt t ∨ v ∈ ts.map (remVal s.phaseEndAt)) := by
        simp
      simp only [List.count_append, count_warn_if, hrec, hmemc]
      clear hone hseq hrec ih
      by_cases hm : v ∈ ts.map (remVal s.phaseEndAt)
      · have hvle : v ≤ remVal s.phaseEndAt t := hmem_le v hm
        simp only [hm, or_true, and_true]
        split_ifs <;> omega
      · simp only [hm, or_false, and_false, if_false]
        split_ifs <;> omega

/-- Witness for the amended C9: a 5-second phase observed at four
monotone in-phase times attains `remaining = 4, 3, 2, 1` and warns
exactly once at 3. -/
theorem warn_once_per_attained_value_witness :
    List.Chain' (· ≤ ·) [(1000:Int), 2500, 3100, 4100]
    ∧ (∀ t ∈ [(1000:Int), 2500, 3100, 4100], 1 ≤ remVal 5000 t)
    ∧ (∀ t ∈ [(1000:Int), 2500, 3100, 4100], remVal 5000 t ≤ 5)
    ∧ (tickSeq 10 [1000, 2500, 3100, 4100] (⟨Phase.REST1, 2, 1, 5, 5, 5000, true, false,
        some ⟨0, 2, 5, 3, 0, 0, 0, false, false⟩,
        ⟨0, 2, 5, 3, 0, 0, 0, false, false⟩⟩ : State)).2.count (Cue.warn 3)
      = if 1 ≤ (3:Int) ∧ (3:Int) ≤ 3 ∧ (3:Int) < 5
            ∧ (3:Int) ∈ [(1000:Int), 2500, 3100, 4100].map (remVal 5000)
        then 1 else 0 := by
  refine ⟨by simp [List.chain'_cons], by decide, by decide, ?_⟩
  exact warn_once_per_attained_value 10 3 [1000, 2500, 3100, 4100]
    (⟨Phase.REST1, 2, 1, 5, 5, 5000, true, false,
      some ⟨0, 2, 5, 3, 0, 0, 0, false, false⟩,
      ⟨0, 2, 5, 3, 0, 0, 0, false, false⟩⟩ : State)
    rfl rfl (by decide) (by decide) (by simp [List.chain'_cons]) (by decide) (by decide)



/-! ### Lemmas about the phase/round trace (C2) -/

lemma workRounds_cons (p : Phase) (r : Int) (rest : List (Phase × Int)) :
    workRounds ((p, r) :: rest)
      = if p = Phase.WORK then r :: workRounds rest else workRounds rest := by
  by_cases h : p = Phase.WORK <;> simp [workRounds, h]

lemma getLast?_cons_some {α : Type} (a : α) {l : List α} {b : α}
    (h : l.getLast? = some b) : (a :: l).getLast? = some b := by
  cases l with
  | nil => simp at h
  | cons c cs => rw [List.getLast?_cons_cons]; exact h

lemma traceFrom_done (cfg : Config) (fuel : Nat) (r : Int) :
    traceFrom cfg fuel Phase.DONE r = [] := by
  cases fuel <;> simp [traceFrom]

lemma range_map_succ_shift (a : Int) (n : Nat) :
    (List.range (n + 1)).map (fun (i : Nat) => a + (i : Int))
      = a :: (List.range n).map (fun (i : Nat) => a + 1 + (i : Int)) := by
  rw [List.range_succ_eq_map, List.map_cons, List.map_map]
  congr 1
  · simp
  · refine List.map_congr_left fun i _ => ?_
    simp only [Function.comp]
    push_cast
    ring

lemma one_cons_range_getLast (n : Nat) :
    ((1 : Int) :: (List.range n).map (fun (i : Nat) => 1 + 1 + (i : Int))).getLast?
      = some ((n : Int) + 1) := by
  cases n with
  | zero => simp
  | succ m =>
      rw [List.range_succ, List.map_append]
      simp only [List.map_cons, List.map_nil]
      rw [← List.cons_append, List.getLast?_concat]
      congr 1
      push_cast
      ring

/-- The work entries and termination of the phase/round sequence after a
`WORK` entry at round `r`: with `n = (rounds - r).toNat` rounds left, the
subsequent `WORK` entries carry exactly the rounds `r+1, …, rounds`, and
the sequence ends in `DONE`. -/
lemma traceFrom_work_spec (cfg : Config) :
    ∀ n : Nat, ∀ (r : Int) (fuel : Nat),
      (cfg.rounds - r).toNat = n → 2 * n + 2 ≤ fuel →
      workRounds (traceFrom cfg fuel Phase.WORK r)
          = (List.range n).map (fun (i : Nat) => r + 1 + (i : Int))
      ∧ ((traceFrom cfg fuel Phase.WORK r).map Prod.fst).getLast? = some Phase.DONE := by
  intro n
  induction n with
  | zero =>
      intro r fuel h0 hf
      have hge : cfg.rounds ≤ r := by omega
      obtain ⟨f, rfl⟩ : ∃ f, fuel = f + 2 := ⟨fuel - 2, by omega⟩
      have ht : traceFrom cfg (f + 2) Phase.WORK r
          = if cfg.cooldown > 0
            then [(Phase.COOLDOWN, r), (Phase.DONE, r)]
            else [(Phase.DONE, r)] := by
        by_cases hc : cfg.cooldown > 0 <;>
          simp [traceFrom, stepPR, nextPhaseOf, hge, hc, traceFrom_done]
      rw [ht]
      by_cases hc : cfg.cooldown > 0 <;> simp [hc, workRounds]
  | succ n ih =>
      intro r fuel h hf
      have hlt : r < cfg.rounds := by omega
      have h' : (cfg.rounds - (r + 1)).toNat = n := by omega
      by_cases hc2 : cfg.rest2 > 0 ∧ cfg.rest2Every > 0 ∧ Int.tmod r cfg.rest2Every = 0
      · obtain ⟨g, rfl⟩ : ∃ g, fuel = g + 2 := ⟨fuel - 2, by omega⟩
        have ht : traceFrom cfg (g + 2) Phase.WORK r
            = (Phase.REST2, r) :: (Phase.WORK, r + 1)
                :: traceFrom cfg g Phase.WORK (r + 1) := by
          simp [traceFrom, stepPR, nextPhaseOf, not_le.mpr hlt, hc2]
        rw [ht]
        obtain ⟨hw1, hw2⟩ := ih (r + 1) g h' (by omega)
        constructor
        · rw [workRounds_cons, if_neg (by decide), workRounds_cons, if_pos rfl, hw1,
              range_map_succ_shift]
        · simp only [List.map_cons]
          exact getLast?_cons_some _ (getLast?_cons_some _ hw2)
      · by_cases hc1 : cfg.rest1 > 0
        · obtain ⟨g, rfl⟩ : ∃ g, fuel = g + 2 := ⟨fuel - 2, by omega⟩
          have ht : traceFrom cfg (g + 2) Phase.WORK r
              = (Phase.REST1, r) :: (Phase.WORK, r + 1)
                  :: traceFrom cfg g Phase.WORK (r + 1) := by
            simp [traceFrom, stepPR, nextPhaseOf, not_le.mpr hlt, hc2, hc1]
          rw [ht]
          obtain ⟨hw1, hw2⟩ := ih (r + 1) g h' (by omega)
          constructor
          · rw [workRounds_cons, if_neg (by decide), workRounds_cons, if_pos rfl, hw1,
                range_map_succ_shift]
          · simp only [List.map_cons]
            exact getLast?_cons_some _ (getLast?_cons_some _ hw2)
        · obtain ⟨g, rfl⟩ : ∃ g, fuel = g + 1 := ⟨fuel - 1, by omega⟩
          have ht : traceFrom cfg (g + 1) Phase.WORK r
              = (Phase.WORK, r + 1) :: traceFrom cfg g Phase.WORK (r + 1) := by
            simp [traceFrom, stepPR, nextPhaseOf, not_le.mpr hlt, hc2, hc1]
          rw [ht]
          obtain ⟨hw1, hw2⟩ := ih (r + 1) g h' (by omega)
          constructor
          · rw [workRounds_cons, if_pos rfl, hw1, range_map_succ_shift]
          · simp only [List.map_cons]
            exact getLast?_cons_some _ hw2



/-! ### C2 -/

/-- Claim C2: for every valid Config (`totalRounds ≥ 1`, `workSeconds ≥ 1`,
all other durations and `rest2Every` non-negative), a complete run from
`start()` to `DONE` enters the `WORK` phase exactly `totalRounds` times,
the round counter at the final `WORK` entry is exactly `totalRounds`,
and the run ends in `DONE`. -/
theorem work_entries_eq_totalRounds (cfg : Config) (fuel : Nat)
    (h1 : 1 ≤ cfg.rounds) (h2 : 1 ≤ cfg.work) (h3 : 0 ≤ cfg.warmup) (h4 : 0 ≤ cfg.rest1)
    (h5 : 0 ≤ cfg.rest2) (h6 : 0 ≤ cfg.rest2Every) (h7 : 0 ≤ cfg.cooldown)
    (hf : 2 * cfg.rounds.toNat + 2 ≤ fuel) :
    (workRounds (fullTrace cfg fuel)).length = cfg.rounds.toNat
    ∧ (workRounds (fullTrace cfg fuel)).getLast? = some cfg.rounds
    ∧ ((fullTrace cfg fuel).map Prod.fst).getLast? = some Phase.DONE := by
  by_cases hwu : cfg.warmup > 0
  · obtain ⟨f, rfl⟩ : ∃ f, fuel = f + 1 := ⟨fuel - 1, by omega⟩
    have ht : fullTrace cfg (f + 1)
        = (Phase.WARMUP, 0) :: (Phase.WORK, 1) :: traceFrom cfg f Phase.WORK 1 := by
      simp [fullTrace, hwu, traceFrom, stepPR, nextPhaseOf]
    obtain ⟨hw1, hw2⟩ :=
      traceFrom_work_spec cfg ((cfg.rounds - 1).toNat) 1 f (by omega) (by omega)
    have hwr : workRounds (fullTrace cfg (f + 1))
        = (1 : Int) :: (List.range ((cfg.rounds - 1).toNat)).map
            (fun (i : Nat) => 1 + 1 + (i : Int)) := by
      rw [ht, workRounds_cons, if_neg (by decide), workRounds_cons, if_pos rfl, hw1]
    refine ⟨?_, ?_, ?_⟩
    · rw [hwr]
      simp only [List.length_cons, List.length_map, List.length_range]
      omega
    · rw [hwr, one_cons_range_getLast]
      simp only [Option.some.injEq]
      omega
    · rw [ht]
      simp only [List.map_cons]
      exact getLast?_cons_some _ (getLast?_cons_some _ hw2)
  · have ht : fullTrace cfg fuel
        = (Phase.WORK, 1) :: traceFrom cfg fuel Phase.WORK 1 := by
      simp [fullTrace, hwu]
    obtain ⟨hw1, hw2⟩ :=
      traceFrom_work_spec cfg ((cfg.rounds - 1).toNat) 1 fuel (by omega) (by omega)
    have hwr : workRounds (fullTrace cfg fuel)
        = (1 : Int) :: (List.range ((cfg.rounds - 1).toNat)).map
            (fun (i : Nat) => 1 + 1 + (i : Int)) := by
      rw [ht, workRounds_cons, if_pos rfl, hw1]
    refine ⟨?_, ?_, ?_⟩
    · rw [hwr]
      simp only [List.length_cons, List.length_map, List.length_range]
      omega
    · rw [hwr, one_cons_range_getLast]
      simp only [Option.some.injEq]
      omega
    · rw [ht]
      simp only [List.map_cons]
      exact getLast?_cons_some _ hw2

/-- Witness for C2 at the spec's scenario config
`{warmup 10, rounds 4, work 20, rest1 10, rest2 30, rest2Every 2, cooldown 15}`. -/
theorem work_entries_eq_totalRounds_witness :
    (1 ≤ (⟨10, 4, 20, 10, 30, 2, 15, false, false⟩ : Config).rounds)
    ∧ (1 ≤ (⟨10, 4, 20, 10, 30, 2, 15, false, false⟩ : Config).work)
    ∧ (2 * (⟨10, 4, 20, 10, 30, 2, 15, false, false⟩ : Config).rounds.toNat + 2 ≤ 12)
    ∧ ((workRounds (fullTrace ⟨10, 4, 20, 10, 30, 2, 15, false, false⟩ 12)).length
          = (⟨10, 4, 20, 10, 30, 2, 15, false, false⟩ : Config).rounds.toNat
      ∧ (workRounds (fullTrace ⟨10, 4, 20, 10, 30, 2, 15, false, false⟩ 12)).getLast?
          = some (⟨10, 4, 20, 10, 30, 2, 15, false, false⟩ : Config).rounds
      ∧ ((fullTrace ⟨10, 4, 20, 10, 30, 2, 15, false, false⟩ 12).map Prod.fst).getLast?
          = some Phase.DONE) :=
  ⟨by decide, by decide, by decide,
   work_entries_eq_totalRounds ⟨10, 4, 20, 10, 30, 2, 15, false, false⟩ 12
     (by decide) (by decide) (by decide) (by decide) (by decide) (by decide) (by decide)
     (by decide)⟩



/-! ### C1 -/

/-- Counterexample to claim C1: a catch-up never spans several phase
boundaries.  Concrete run with config
`{warmup 0, rounds 2, work 5, rest1 3, rest2 0, rest2Every 0, cooldown 0}`:
the session is in `WORK` round 1 with `phaseEndAt = 5000`; under the
claim's fixed schedule, `REST1` would span `[5000, 8000)`, the round-2
`WORK` `[8000, 13000)` and the run would be `DONE` from `13000` on.  The
clock jumps to `100000`, spanning three phase boundaries — yet the
single callback enters only `REST1` (one transition cue, not three), giving
that phase its full 3 seconds re-anchored at the callback time, so the
observed phase after the callback is not the phase containing the
post-jump timestamp. -/
theorem tick_no_multi_phase_catchup :
    (tickOnce 10 100000 (⟨Phase.WORK, 2, 1, 5, 5, 5000, true, false,
        some ⟨0, 2, 5, 3, 0, 0, 0, false, false⟩,
        ⟨0, 2, 5, 3, 0, 0, 0, false, false⟩⟩ : State)).1.phase = Phase.REST1
    ∧ (tickOnce 10 100000 (⟨Phase.WORK, 2, 1, 5, 5, 5000, true, false,
        some ⟨0, 2, 5, 3, 0, 0, 0, false, false⟩,
        ⟨0, 2, 5, 3, 0, 0, 0, false, false⟩⟩ : State)).1.phase ≠ Phase.DONE
    ∧ (tickOnce 10 100000 (⟨Phase.WORK, 2, 1, 5, 5, 5000, true, false,
        some ⟨0, 2, 5, 3, 0, 0, 0, false, false⟩,
        ⟨0, 2, 5, 3, 0, 0, 0, false, false⟩⟩ : State)).2
      = [Cue.transition Phase.REST1]
    ∧ (tickOnce 10 100000 (⟨Phase.WORK, 2, 1, 5, 5, 5000, true, false,
        some ⟨0, 2, 5, 3, 0, 0, 0, false, false⟩,
        ⟨0, 2, 5, 3, 0, 0, 0, false, false⟩⟩ : State)).1.phaseEndAt = 103000 := by
  refine ⟨?_, ?_, ?_, ?_⟩ <;> decide

/-- Amended C1: however far the clock has advanced past `phaseEndAt`, one
reconciliation callback advances exactly one phase: it enters the single
successor phase the sequencer chooses, emits that one transition cue, and
re-anchors the new phase's deadline at the callback's own clock value
(`phaseEndAt = now + duration * 1000`, a full duration from `now`), after
which the catch-up loop exits because the re-synced `remaining` is the
full positive duration; when the successor is `DONE` the callback stops
the session instead.  The phase observed after the callback is therefore
the immediate successor, not the phase containing the post-jump
timestamp. -/
theorem tick_advances_single_phase (s : State) (cfg : Config) (now : Int) (fuel : Nat)
    (hcfg : s.cfgRun = some cfg) (hrun : s.running = true) (hp : s.paused = false)
    (hw : 1 ≤ cfg.work)
    (h1 : s.phase ≠ Phase.IDLE) (h2 : s.phase ≠ Phase.DONE)
    (hnow : s.phaseEndAt ≤ now) (hfuel : 1 ≤ fuel) :
    (tickOnce fuel now s).2
        = [Cue.transition (nextPhaseOf cfg s.totalRounds s.currentRound s.phase)]
    ∧ (tickOnce fuel now s).1.phase = nextPhaseOf cfg s.totalRounds s.currentRound s.phase
    ∧ (nextPhaseOf cfg s.totalRounds s.currentRound s.phase ≠ Phase.DONE →
        (tickOnce fuel now s).1.phaseEndAt
            = now + phaseDurCfg cfg (nextPhaseOf cfg s.totalRounds s.currentRound s.phase) * 1000
        ∧ (tickOnce fuel now s).1.remaining
            = phaseDurCfg cfg (nextPhaseOf cfg s.totalRounds s.currentRound s.phase)
        ∧ (tickOnce fuel now s).1.running = true)
    ∧ (nextPhaseOf cfg s.totalRounds s.currentRound s.phase = Phase.DONE →
        (tickOnce fuel now s).1.running = false) := by
  obtain ⟨f, rfl⟩ : ∃ f, fuel = f + 1 := ⟨fuel - 1, by omega⟩
  have hcnd : ¬(s.running = false ∨ s.paused = true) := by simp [hrun, hp]
  have hs1 : syncRemainingFromClock now s = { s with remaining := 0 } := by
    have hcp : ¬(s.phase = Phase.IDLE ∨ s.phase = Phase.DONE) := by simp [h1, h2]
    have hle : ceilDiv (s.phaseEndAt - now) 1000 ≤ 0 :=
      ceilDiv_nonpos (by omega) (by norm_num)
    have hmax : max 0 (ceilDiv (s.phaseEndAt - now) 1000) = 0 := by omega
    simp [syncRemainingFromClock, hcp, hmax]
  have hstep := catchUp_single_step f now { s with remaining := 0 } cfg
    (by simp [hcfg]) (by simp [hrun]) (by simp [hp]) (by simp)
    (by simp [h1]) (by simp [h2]) hw
  simp only [State.totalRounds, State.currentRound, State.phase] at hstep
  have htick : tickOnce (f + 1) now s
      = ((catchUp (f + 1) now { s with remaining := 0 }).1,
         (catchUp (f + 1) now { s with remaining := 0 }).2) := by
    simp [tickOnce, hcnd, hs1]
  rw [htick]
  simpa using hstep

/-- Witness for the amended C1 at the counterexample's concrete state:
the successor of `WORK` round 1 is `REST1` with its full 3-second
duration re-anchored at the callback time `100000`. -/
theorem tick_advances_single_phase_witness :
    ((⟨Phase.WORK, 2, 1, 5, 5, 5000, true, false,
        some ⟨0, 2, 5, 3, 0, 0, 0, false, false⟩,
        ⟨0, 2, 5, 3, 0, 0, 0, false, false⟩⟩ : State).cfgRun
      = some ⟨0, 2, 5, 3, 0, 0, 0, false, false⟩)
    ∧ (1 ≤ (⟨0, 2, 5, 3, 0, 0, 0, false, false⟩ : Config).work)
    ∧ ((⟨Phase.WORK, 2, 1, 5, 5, 5000, true, false,
        some ⟨0, 2, 5, 3, 0, 0, 0, false, false⟩,
        ⟨0, 2, 5, 3, 0, 0, 0, false, false⟩⟩ : State).phaseEndAt ≤ 100000)
    ∧ ((tickOnce 10 100000 (⟨Phase.WORK, 2, 1, 5, 5, 5000, true, false,
          some ⟨0, 2, 5, 3, 0, 0, 0, false, false⟩,
          ⟨0, 2, 5, 3, 0, 0, 0, false, false⟩⟩ : State)).2
        = [Cue.transition (nextPhaseOf ⟨0, 2, 5, 3, 0, 0, 0, false, false⟩ 2 1 Phase.WORK)]
      ∧ (tickOnce 10 100000 (⟨Phase.WORK, 2, 1, 5, 5, 5000, true, false,
          some ⟨0, 2, 5, 3, 0, 0, 0, false, false⟩,
          ⟨0, 2, 5, 3, 0, 0, 0, false, false⟩⟩ : State)).1.phase
        = nextPhaseOf ⟨0, 2, 5, 3, 0, 0, 0, false, false⟩ 2 1 Phase.WORK) := by
  have h := tick_advances_single_phase
    (⟨Phase.WORK, 2, 1, 5, 5, 5000, true, false,
      some ⟨0, 2, 5, 3, 0, 0, 0, false, false⟩,
      ⟨0, 2, 5, 3, 0, 0, 0, false, false⟩⟩ : State)
    ⟨0, 2, 5, 3, 0, 0, 0, false, false⟩ 100000 10
    rfl rfl rfl (by decide) (by decide) (by decide) (by decide) (by decide)
  exact ⟨rfl, by decide, by decide, h.1, h.2.1⟩


end HIIT
